import Mathlib

/-!
Verification of the object-transformation and parameter-substitution engine of
template2helm (`cmd/convert.go`).  The Go code is shallowly embedded: decoded
Kubernetes objects (`map[string]interface{}` trees produced by
`json.Unmarshal`) become `JValue` trees, the accessors of
`k8s.io/apimachinery/pkg/apis/meta/v1/unstructured` become total Lean
functions, and the four ways a Go code path can end (normal value, returned
`error`, `log.Fatalf`, runtime panic) become the four constructors of
`GoOutcome`.  Go maps are modelled as association lists with unique keys;
where the program ranges over a map whose iteration order is observable
(`mServiceObj` in the Route rewrite) the iteration order is passed explicitly
and theorems quantify over permutations.
-/

set_option maxRecDepth 100000

namespace Template2Helm

/-- Model of a decoded JSON value (`interface{}` after `json.Unmarshal`).
JSON numbers are modelled as integers: every number handled by the program is
a port value, and for integral values in the exactly-representable range Go's
`%v` formatting of the underlying `float64` agrees with decimal notation. -/
inductive JValue where
  | null : JValue
  | bool : Bool → JValue
  | num : Int → JValue
  | str : String → JValue
  | arr : List JValue → JValue
  | obj : List (String × JValue) → JValue

/-- A decoded JSON object (`map[string]interface{}`), as an association list
with unique keys in source order. -/
abbrev JObj := List (String × JValue)

/-- Outcome of running a piece of Go code: a normal result, an `error` value
returned to the caller, a `log.Fatalf` exit, or a runtime panic (e.g. a failed
type assertion).  Message strings abbreviate the Go log texts. -/
inductive GoOutcome (α : Type) where
  | ok : α → GoOutcome α
  | errReturn : String → GoOutcome α
  | fatalExit : String → GoOutcome α
  | crash : String → GoOutcome α

/-- Go map read `m[k]` (comma-ok form) on a decoded JSON object. -/
def lookupField : JObj → String → Option JValue
  | [], _ => none
  | p :: m, k => if p.1 = k then some p.2 else lookupField m k

/-- Go `delete(m, k)`, the effect of `unstructured.RemoveNestedField(m, k)`
for a one-element path. -/
def removeField : JObj → String → JObj
  | [], _ => []
  | p :: m, k => if p.1 = k then removeField m k else p :: removeField m k

/-- Go map write `m[k] = v`.  The key keeps its place when present (keys are
unique) and is appended otherwise; Go maps are unordered, so any deterministic
placement is a faithful model. -/
def setField : JObj → String → JValue → JObj
  | [], k, v => [(k, v)]
  | p :: m, k, v => if p.1 = k then (k, v) :: m else p :: setField m k v

/-- Result of `unstructured.NestedFieldNoCopy`: the value with `found = true`,
`found = false` (absent field or nil on the path), or an accessor error (a
non-map intermediate value). -/
inductive FieldResult where
  | found : JValue → FieldResult
  | missing : FieldResult
  | typeErr : String → FieldResult

/-- Model of `unstructured.NestedFieldNoCopy(obj, fields...)`: walk the path;
a nil value met before the path ends gives not-found, a non-map non-nil value
met before the path ends gives an accessor error. -/
def nestedGet : JValue → List String → FieldResult
  | v, [] => FieldResult.found v
  | JValue.obj m, f :: rest =>
      match lookupField m f with
      | none => FieldResult.missing
      | some v' => nestedGet v' rest
  | JValue.null, _ :: _ => FieldResult.missing
  | _, f :: _ => FieldResult.typeErr f

/-- Model of `unstructured.NestedMap(obj, fields...)`: `.ok (some m)` when the
path ends at a map (the deep copy is the identity on pure values), `.ok none`
when the field is absent, `.error` on an accessor error or a non-map value at
the path's end. -/
def nestedMapGet (v : JValue) (fields : List String) : Except String (Option JObj) :=
  match nestedGet v fields with
  | FieldResult.missing => Except.ok none
  | FieldResult.typeErr e => Except.error e
  | FieldResult.found (JValue.obj m) => Except.ok (some m)
  | FieldResult.found _ => Except.error "accessor error: value is not a map"

/-- Model of `unstructured.SetNestedMap(m, value, f1, f2)` (via
`SetNestedField`): the intermediate map is reused when present, created when
absent, and an existing non-map intermediate value is an error reported before
any mutation. -/
def setNested2 (m : JObj) (f1 f2 : String) (v : JValue) : Except String JObj :=
  match lookupField m f1 with
  | some (JValue.obj inner) => Except.ok (setField m f1 (JValue.obj (setField inner f2 v)))
  | some _ => Except.error "value is not a map"
  | none => Except.ok (setField m f1 (JValue.obj [(f2, v)]))

/-- Model of Go `fmt.Sprint` on a decoded scalar JSON value.  The program only
stringifies scalar port-list fields; composite values (which Go would render
with `%v` map/slice syntax) are modelled by a fixed token. -/
def goSprint : JValue → String
  | JValue.str s => s
  | JValue.num n => toString n
  | JValue.bool true => "true"
  | JValue.bool false => "false"
  | JValue.null => "<nil>"
  | JValue.arr _ => "[composite]"
  | JValue.obj _ => "[composite]"

/-- Panic message of a failed `x.(map[string]interface{})` type assertion. -/
def assertMapMsg : String := "interface conversion: interface \x7b\x7d is not map[string]interface \x7b\x7d"

/-- Panic message of a failed `x.([]interface{})` type assertion. -/
def assertSliceMsg : String := "interface conversion: interface \x7b\x7d is not []interface \x7b\x7d"

/-- Model of the `case "DeploymentConfig"` branch of `objectToTemplate`:
set `apiVersion`/`kind`, remove `strategy`, `test` and `triggers` from `spec`,
then reconcile the selector.  The accessor error on the `spec` lookup is
returned to the caller (the source's `return fmt.Errorf(...)`), a missing or
non-map `spec` crashes in the `myInterface.(map[string]interface{})` type
assertion, and accessor errors on the selector lookups hit `checkErr`, i.e.
`log.Fatalf`. -/
def dcRewrite (root : JObj) : GoOutcome JObj :=
  let root1 := setField (setField root "apiVersion" (JValue.str "apps/v1")) "kind" (JValue.str "Deployment")
  match nestedGet (JValue.obj root1) ["spec"] with
  | FieldResult.typeErr e => GoOutcome.errReturn ("Deployment - failed to parse the object: " ++ e)
  | FieldResult.missing => GoOutcome.crash assertMapMsg
  | FieldResult.found v =>
    match v with
    | JValue.obj spec0 =>
      let spec1 := removeField (removeField (removeField spec0 "strategy") "test") "triggers"
      match nestedMapGet (JValue.obj spec1) ["selector", "matchLabels"] with
      | Except.error e => GoOutcome.fatalExit ("failed to get the selector.matchLabels: " ++ e)
      | Except.ok (some _) => GoOutcome.ok (setField root1 "spec" (JValue.obj spec1))
      | Except.ok none =>
        match nestedMapGet (JValue.obj spec1) ["selector"] with
        | Except.error e => GoOutcome.fatalExit ("failed to get the selector: " ++ e)
        | Except.ok none => GoOutcome.ok (setField root1 "spec" (JValue.obj spec1))
        | Except.ok (some sel) =>
          let spec2 := removeField spec1 "selector"
          let spec3 :=
            match setNested2 spec2 "selector" "matchLabels" (JValue.obj sel) with
            | Except.ok s => s
            | Except.error _ => spec2
          GoOutcome.ok (setField root1 "spec" (JValue.obj spec3))
    | _ => GoOutcome.crash assertMapMsg

/-- An entry of `mServiceObj`: one port item of a Service object with all its
fields stringified by `fmt.Sprint` (a `map[string]string` in the source). -/
abbrev PortEntry := List (String × String)

/-- The Service Port Index `mServiceObj : map[int]map[string]string`, stored
in insertion order; keys are unique. -/
abbrev SvcIndex := List (Nat × PortEntry)

/-- Go `map[string]string` read `e[k]`, yielding the zero value `""` when the
key is absent. -/
def lookupStr : PortEntry → String → String
  | [], _ => ""
  | p :: m, k => if p.1 = k then p.2 else lookupStr m k

/-- Go map write `m[keyy] = v` on the Service Port Index: replace when the
key is present (keys are unique), append otherwise (so `List.length` models
Go's `len`). -/
def mapInsertNat : SvcIndex → Nat → PortEntry → SvcIndex
  | [], k, v => [(k, v)]
  | p :: m, k, v => if p.1 = k then (k, v) :: m else p :: mapInsertNat m k v

/-- Model of the port loop of the `case "Service"` branch:
`for key, value := range ports { keyy := key + len(mServiceObj); mServiceObj[keyy] = stringified(value) }`.
`key` is the slice position and `idx.length` is `len(mServiceObj)` at that
iteration.  A port item that is not a JSON object crashes in the
`value.(map[string]interface{})` type assertion. -/
def portsUpdateAux : SvcIndex → Nat → List JValue → GoOutcome SvcIndex
  | idx, _, [] => GoOutcome.ok idx
  | idx, key, p :: rest =>
    match p with
    | JValue.obj fields =>
        portsUpdateAux (mapInsertNat idx (key + idx.length) (fields.map (fun kv => (kv.1, goSprint kv.2)))) (key + 1) rest
    | _ => GoOutcome.crash assertMapMsg

/-- Model of the whole `case "Service"` branch of `objectToTemplate`: fetch
`spec.ports`; an accessor error hits `checkErr` (`log.Fatalf`), an absent or
nil or non-slice value crashes in the `getServicePorts.([]interface{})` type
assertion, and a present list grows the index via `portsUpdateAux`. -/
def serviceCase (idx : SvcIndex) (root : JObj) : GoOutcome SvcIndex :=
  match nestedGet (JValue.obj root) ["spec", "ports"] with
  | FieldResult.typeErr e => GoOutcome.fatalExit ("Service - failed to get the ports: " ++ e)
  | FieldResult.missing => GoOutcome.crash assertSliceMsg
  | FieldResult.found v =>
    match v with
    | JValue.arr ports => portsUpdateAux idx 0 ports
    | _ => GoOutcome.crash assertSliceMsg

/-- Index accumulation over the port lists of successive Service objects, as
performed by the single pass of `objectToTemplate`. -/
def foldPorts : SvcIndex → List (List JValue) → GoOutcome SvcIndex
  | idx, [] => GoOutcome.ok idx
  | idx, ps :: rest =>
    match portsUpdateAux idx 0 ps with
    | GoOutcome.ok idx' => foldPorts idx' rest
    | e => e

/-- The Go interface comparison `getTargetPort == srvObjV["name"]`: the
decoded `targetPort` value (an `interface{}`) equals a `string` exactly when
it is itself a string with the same content. -/
def tpMatches : JValue → String → Bool
  | JValue.str s, n => s == n
  | _, _ => false

/-- Model of the port-resolution loop of the `case "Route"` branch:
`TargetPort` starts as the empty string and the loop over `mServiceObj` breaks
at the first entry whose `name` equals the route's target port reference.  The
argument list is the order in which Go's `range` visits the map, an
unspecified permutation of the index. -/
def routeLookup (tp : JValue) : SvcIndex → String
  | [] => ""
  | p :: rest =>
    if tpMatches tp (lookupStr p.2 "name") then lookupStr p.2 "targetPort"
    else routeLookup tp rest

/-- The left brace character, `"\x7b"`. -/
def lbrace : Char := Char.ofNat 123

/-- The right brace character, `"\x7d"`. -/
def rbrace : Char := Char.ofNat 125

/-- Whitespace skipping of the JSON grammar. -/
def skipWs : List Char → List Char
  | [] => []
  | c :: cs => if c = ' ' ∨ c = '\t' ∨ c = '\n' ∨ c = '\r' then skipWs cs else c :: cs

/-- Remainder after a JSON string body (the opening quote already consumed).
Escape sequences are modelled as a backslash protecting the next character;
the restrictions of `encoding/json` on escape kinds and control characters are
not needed by the program's template and are not modelled. -/
def jsonStrRest : List Char → Option (List Char)
  | [] => none
  | c :: r =>
    if c = '"' then some r
    else if c = '\\' then
      match r with
      | [] => none
      | _ :: r' => jsonStrRest r'
    else jsonStrRest r

/-- Remainder after one or more decimal digits. -/
def takeDigits : List Char → Option (List Char)
  | [] => none
  | c :: r => if c.isDigit then some (r.dropWhile Char.isDigit) else none

/-- Remainder after an optional fraction part. -/
def jsonFrac (cs : List Char) : Option (List Char) :=
  match cs with
  | '.' :: r => takeDigits r
  | _ => some cs

/-- Remainder after an optional exponent part. -/
def jsonExp (cs : List Char) : Option (List Char) :=
  match cs with
  | 'e' :: r =>
      (match r with
       | '+' :: q => takeDigits q
       | '-' :: q => takeDigits q
       | _ => takeDigits r)
  | 'E' :: r =>
      (match r with
       | '+' :: q => takeDigits q
       | '-' :: q => takeDigits q
       | _ => takeDigits r)
  | _ => some cs

/-- Remainder after a JSON number (`encoding/json`'s leading-zero restriction
is not needed by the program's template and is not modelled). -/
def jsonNum (cs : List Char) : Option (List Char) :=
  let cs1 := match cs with | '-' :: r => r | _ => cs
  match takeDigits cs1 with
  | none => none
  | some r1 =>
    match jsonFrac r1 with
    | none => none
    | some r2 => jsonExp r2

mutual

/-- Remainder after one JSON value, with fuel bounding the nesting. -/
def jsonV : Nat → List Char → Option (List Char)
  | 0, _ => none
  | f + 1, cs =>
    match skipWs cs with
    | [] => none
    | c :: r =>
      if c = lbrace then jsonObjRest f true r
      else if c = '[' then jsonArrRest f true r
      else if c = '"' then jsonStrRest r
      else
        match c :: r with
        | 't' :: 'r' :: 'u' :: 'e' :: r' => some r'
        | 'f' :: 'a' :: 'l' :: 's' :: 'e' :: r' => some r'
        | 'n' :: 'u' :: 'l' :: 'l' :: r' => some r'
        | cs' => jsonNum cs'

/-- Remainder after the members of a JSON object (the opening brace already
consumed); `first` is true when no member has been read yet. -/
def jsonObjRest : Nat → Bool → List Char → Option (List Char)
  | 0, _, _ => none
  | f + 1, first, cs =>
    match skipWs cs with
    | [] => none
    | c :: r =>
      if c = rbrace then (if first then some r else none)
      else if c = '"' then
        match jsonStrRest r with
        | none => none
        | some r2 =>
          match skipWs r2 with
          | ':' :: r3 =>
            match jsonV f r3 with
            | none => none
            | some r4 =>
              match skipWs r4 with
              | ',' :: r5 => jsonObjRest f false r5
              | c5 :: r5 => if c5 = rbrace then some r5 else none
              | [] => none
          | _ => none
      else none

/-- Remainder after the elements of a JSON array (the opening bracket already
consumed); `first` is true when no element has been read yet. -/
def jsonArrRest : Nat → Bool → List Char → Option (List Char)
  | 0, _, _ => none
  | f + 1, first, cs =>
    match skipWs cs with
    | [] => none
    | c :: r =>
      if c = ']' ∧ first then some r
      else
        match jsonV f (c :: r) with
        | none => none
        | some r2 =>
          match skipWs r2 with
          | ',' :: r3 => jsonArrRest f false r3
          | ']' :: r3 => some r3
          | _ => none

end

/-- Model of `json.Unmarshal(data, &m)` for `m : map[string]interface{}`:
the text must be a single JSON object followed only by whitespace. -/
def unmarshalObjOk (s : String) : Bool :=
  match skipWs s.data with
  | [] => false
  | c :: r =>
    if c = lbrace then
      match jsonObjRest (s.data.length + 1) true r with
      | some rest => (skipWs rest).isEmpty
      | none => false
    else false

/-- Model of `k8sR.GetName()`: `metadata.name` when it is a string, the empty
string otherwise. -/
def getName (root : JObj) : String :=
  match nestedGet (JValue.obj root) ["metadata", "name"] with
  | FieldResult.found (JValue.str s) => s
  | _ => ""

/-- The `jsonIngressTemp` raw string of the `case "Route"` branch, with the
route name, the backing service name and the resolved target port
interpolated exactly as in the source. -/
def jsonIngressTemp (routeName svcName targetPort : String) : String :=
  "\x7b\n" ++
  "\t\t\t\t\"apiVersion\": \"networking.k8s.io/v1\",\n" ++
  "\t\t\t\t\"kind\": \"Ingress\",\n" ++
  "\t\t\t\t\"metadata\": \x7b\n" ++
  "\t\t\t\t\t\"name\": \"ingress-" ++ routeName ++ "\",\n" ++
  "\t\t\t\t\t\"annotations\": \x7b\n" ++
  "\t\t\t\t\t\t\"nginx.ingress.kubernetes.io/rewrite-target\": \"/\"\n" ++
  "\t\t\t\t\t\x7d\n" ++
  "\t\t\t\t\x7d,\n" ++
  "\t\t\t\t\"spec\": \x7b\n" ++
  "\t\t\t\t\t\"rules\": [\n" ++
  "\t\t\t\t\t\t\x7b\n" ++
  "\t\t\t\t\t\t\t\"http\": \x7b\n" ++
  "\t\t\t\t\t\t\t\t\"paths\": [\n" ++
  "\t\t\t\t\t\t\t\t\t\x7b\n" ++
  "\t\t\t\t\t\t\t\t\t\t\"path\": \"/\",\n" ++
  "\t\t\t\t\t\t\t\t\t\t\"pathType\": \"Prefix\",\n" ++
  "\t\t\t\t\t\t\t\t\t\t\"backend\": \x7b\n" ++
  "\t\t\t\t\t\t\t\t\t\t\t\"service\": \x7b\n" ++
  "\t\t\t\t\t\t\t\t\t\t\t\t\"name\": \"" ++ svcName ++ "\",\n" ++
  "\t\t\t\t\t\t\t\t\t\t\t\t\"port\": \x7b\n" ++
  "\t\t\t\t\t\t\t\t\t\t\t\t\t\"number\": " ++ targetPort ++ "\n" ++
  "\t\t\t\t\t\t\t\t\t\t\t\t\x7d\n" ++
  "\t\t\t\t\t\t\t\t\t\t\t\x7d\n" ++
  "\t\t\t\t\t\t\t\t\t\t\x7d\n" ++
  "\t\t\t\t\t\t\t\t\t\x7d\n" ++
  "\t\t\t\t\t\t\t\t]\n" ++
  "\t\t\t\t\t\t\t\x7d\n" ++
  "\t\t\t\t\t\t\x7d\n" ++
  "\t\t\t\t\t]\n" ++
  "\t\t\t\t\x7d\n" ++
  "\t\t\t\x7d"

/-- Final step of the `case "Route"` branch: interpolate the template and
unmarshal it.  On unmarshal failure `checkErr` runs `log.Fatalf`; on success
the route object's content is replaced by the decoded tree, which is the JSON
decoding of the returned text. -/
def buildIngress (root : JObj) (svcName targetPort : String) : GoOutcome String :=
  let tmpl := jsonIngressTemp (getName root) svcName targetPort
  if unmarshalObjOk tmpl then GoOutcome.ok tmpl
  else GoOutcome.fatalExit ("::: ERROR - Route - failed to get the 'service name': " ++ svcName ++ " from the 'route' object\n")

/-- Model of the whole `case "Route"` branch of `objectToTemplate`: read
`spec.to` (an accessor error hits `checkErr`, an absent or non-map value
crashes in the `getTargetService.(map[string]interface{})` type assertion),
stringify it, read `spec.port.targetPort` (absent gives a nil interface that
matches no entry), resolve the port over the given map-iteration order and
build the ingress object. -/
def routeRewrite (iter : SvcIndex) (root : JObj) : GoOutcome String :=
  match nestedGet (JValue.obj root) ["spec", "to"] with
  | FieldResult.typeErr e => GoOutcome.fatalExit ("Route - failed to get the service name: " ++ e)
  | FieldResult.missing => GoOutcome.crash assertMapMsg
  | FieldResult.found v =>
    match v with
    | JValue.obj toM =>
      let svcName := match lookupField toM "name" with
        | some x => goSprint x
        | none => ""
      match nestedGet (JValue.obj root) ["spec", "port", "targetPort"] with
      | FieldResult.typeErr e => GoOutcome.fatalExit ("Route - failed to get the target port: " ++ e)
      | FieldResult.missing => buildIngress root svcName (routeLookup JValue.null iter)
      | FieldResult.found w => buildIngress root svcName (routeLookup w iter)
    | _ => GoOutcome.crash assertMapMsg

/-- The fixed 4-byte document separator `[]byte{'-', '-', '-', '\n'}`. -/
def docSeparator : List Char := ['-', '-', '-', '\n']

/-- Go map read `m[kind]` on the per-kind bucket map; `none` models the nil
check of the source (bucket data produced by `yaml.JSONToYAML` is never the
nil slice). -/
def bucketLookup : List (String × List Char) → String → Option (List Char)
  | [], _ => none
  | p :: m, k => if p.1 = k then some p.2 else bucketLookup m k

/-- Go map write on a key known to be present. -/
def bucketReplace : List (String × List Char) → String → List Char → List (String × List Char)
  | [], _, _ => []
  | p :: m, k, d => if p.1 = k then (k, d) :: m else p :: bucketReplace m k d

/-- One aggregation step of `objectToTemplate`: a first object of its kind is
stored as-is; a later object is appended after one separator. -/
def bucketAdd (m : List (String × List Char)) (k : String) (d : List Char) : List (String × List Char) :=
  match bucketLookup m k with
  | none => m ++ [(k, d)]
  | some old => bucketReplace m k (old ++ docSeparator ++ d)

/-- The bucket map after the single pass, fed with the (kind, serialized
bytes) pairs in Bundle order. -/
def aggregate (items : List (String × List Char)) : List (String × List Char) :=
  items.foldl (fun m kd => bucketAdd m kd.1 kd.2) []

/-- Concatenation of documents, each preceded by one separator. -/
def withSep (ds : List (List Char)) : List Char :=
  ds.foldr (fun d acc => docSeparator ++ d ++ acc) []

/-- The serialized objects of one output kind, in Bundle encounter order. -/
def kindData (k : String) (items : List (String × List Char)) : List (List Char) :=
  (items.filter (fun p => p.1 = k)).map Prod.snd

/-- Documents joined with exactly one separator between consecutive ones and
none before the first or after the last. -/
def sepJoin : List (List Char) → List Char
  | [] => []
  | d :: ds => d ++ withSep ds

/-- Prefix test on character lists. -/
def isPrefB : List Char → List Char → Bool
  | [], _ => true
  | _ :: _, [] => false
  | a :: p, b :: s => if a = b then isPrefB p s else false

/-- Substring-occurrence test on character lists. -/
def occursB (p : List Char) : List Char → Bool
  | [] => isPrefB p []
  | c :: s => isPrefB p (c :: s) || occursB p s

/-- Model of Go `strings.ReplaceAll(s, pat, rep)` for a nonempty pattern: a
left-to-right scan replacing each non-overlapping occurrence.  (The program's
patterns are always nonempty; for an empty pattern this model is the
identity.) -/
def replaceAll (pat rep : List Char) : List Char → List Char
  | [] => []
  | c :: s =>
    if pat.length ≠ 0 ∧ isPrefB pat (c :: s) = true then
      rep ++ replaceAll pat rep (s.drop (pat.length - 1))
    else c :: replaceAll pat rep s
termination_by l => l.length
decreasing_by
  all_goals simp
  all_goals omega

/-- An OpenShift template parameter: its name and its default value (`Value`
is the empty string when no default is declared). -/
structure Param where
  name : String
  value : String

/-- Model of Go `strings.ToLower` (and of Lean's `String.toLower`):
character-wise lowering over the string's characters. -/
def goToLower (s : String) : String := String.mk (s.data.map Char.toLower)

/-- The templating-engine value reference bound to a lower-cased name,
`{{ .Values.<low> }}`. -/
def valueRef (low : String) : String := "\x7b\x7b .Values." ++ low ++ " \x7d\x7d"

/-- The short-form token `${NAME}`. -/
def shortTok (n : String) : String := "$\x7b" ++ n ++ "\x7d"

/-- The braced-form token `${{NAME}}`. -/
def bracedTok (n : String) : String := "$\x7b\x7b" ++ n ++ "\x7d\x7d"

/-- Substitution of one parameter over one file's bytes: first every
`${NAME}`, then every `${{NAME}}`, both replaced by the value reference bound
to the lower-cased name. -/
def substParam (pm : Param) (data : List Char) : List Char :=
  let rep := (valueRef (goToLower pm.name)).data
  replaceAll (bracedTok pm.name).data rep (replaceAll (shortTok pm.name).data rep data)

/-- Placeholder stored for a parameter without a default. -/
def todoPlaceholder (low : String) : String :=
  "# TODO: must define a default value for ." ++ low

/-- Go map write `v[name] = val` on the values map. -/
def valuesInsert : List (String × String) → String → String → List (String × String)
  | [], k, v => [(k, v)]
  | p :: m, k, v => if p.1 = k then (k, v) :: m else p :: valuesInsert m k v

/-- One iteration of the parameter loop of `paramsToValues`: substitute the
parameter in every file, then record its default (or the placeholder) under
the lower-cased name. -/
def paramStep (st : List (String × String) × List (List Char)) (pm : Param) : List (String × String) × List (List Char) :=
  let low := goToLower pm.name
  let files := st.2.map (substParam pm)
  let v := if pm.value ≠ "" then pm.value else todoPlaceholder low
  (valuesInsert st.1 low v, files)

/-- Model of `paramsToValues`: fold the parameter loop over the declared
parameters in order, starting from the given values map and file contents. -/
def paramsToValues (ps : List Param) (vals : List (String × String)) (files : List (List Char)) : List (String × String) × List (List Char) :=
  ps.foldl paramStep (vals, files)

/-- A DeploymentConfig object with no `spec` subtree. -/
def dcNoSpec : JObj :=
  [("apiVersion", JValue.str "apps.openshift.io/v1"),
   ("kind", JValue.str "DeploymentConfig"),
   ("metadata", JValue.obj [("name", JValue.str "mydc")])]

/-- A DeploymentConfig `spec` that already carries `selector.matchLabels` and
also carries a `strategy` branch. -/
def dcWithMlSpec : JObj :=
  [("strategy", JValue.obj [("type", JValue.str "Rolling")]),
   ("selector", JValue.obj [("matchLabels", JValue.obj [("app", JValue.str "x")])]),
   ("replicas", JValue.num 3)]

/-- A DeploymentConfig object whose `spec` is `dcWithMlSpec`. -/
def dcWithMl : JObj :=
  [("apiVersion", JValue.str "apps.openshift.io/v1"),
   ("kind", JValue.str "DeploymentConfig"),
   ("metadata", JValue.obj [("name", JValue.str "mydc")]),
   ("spec", JValue.obj dcWithMlSpec)]

/-- A DeploymentConfig `spec` with a flat `selector` map and no
`selector.matchLabels`. -/
def dcFlatSpec : JObj :=
  [("replicas", JValue.num 2),
   ("selector", JValue.obj [("app", JValue.str "x"), ("deploymentconfig", JValue.str "x")]),
   ("strategy", JValue.obj [("type", JValue.str "Rolling")]),
   ("template", JValue.obj [])]

/-- A DeploymentConfig object whose `spec` is `dcFlatSpec`. -/
def dcFlat : JObj :=
  [("apiVersion", JValue.str "apps.openshift.io/v1"),
   ("kind", JValue.str "DeploymentConfig"),
   ("spec", JValue.obj dcFlatSpec)]

/-- The `spec` subtree produced by `dcRewrite` from a successful run, when the
result has one. -/
def okSpec (o : GoOutcome JObj) : Option JObj :=
  match o with
  | GoOutcome.ok r =>
    (match lookupField r "spec" with
     | some (JValue.obj sp) => some sp
     | _ => none)
  | _ => none

/-- A Route object referencing service `mysvc` with target port `web`. -/
def routeC1 : JObj :=
  [("apiVersion", JValue.str "route.openshift.io/v1"),
   ("kind", JValue.str "Route"),
   ("metadata", JValue.obj [("name", JValue.str "myroute")]),
   ("spec", JValue.obj
     [("to", JValue.obj [("kind", JValue.str "Service"), ("name", JValue.str "mysvc")]),
      ("port", JValue.obj [("targetPort", JValue.str "web")])])]

/-- A Route object whose `spec` lacks `to`. -/
def routeNoTo : JObj :=
  [("kind", JValue.str "Route"),
   ("metadata", JValue.obj [("name", JValue.str "myroute")]),
   ("spec", JValue.obj [("host", JValue.str "example.com")])]

/-- A Route object whose `spec` lacks `port.targetPort`. -/
def routeNoPort : JObj :=
  [("kind", JValue.str "Route"),
   ("metadata", JValue.obj [("name", JValue.str "myroute")]),
   ("spec", JValue.obj [("to", JValue.obj [("name", JValue.str "mysvc")])])]

/-- A Service object whose `spec` lacks `ports`. -/
def svcNoPorts : JObj :=
  [("kind", JValue.str "Service"),
   ("metadata", JValue.obj [("name", JValue.str "mysvc")]),
   ("spec", JValue.obj [("clusterIP", JValue.str "None")])]

/-- A Service object with a present but empty `spec.ports` list. -/
def svcEmptyPorts : JObj :=
  [("kind", JValue.str "Service"),
   ("spec", JValue.obj [("ports", JValue.arr [])])]

/-- A port entry named `http` with target port `8080`. -/
def entryH1 : PortEntry := [("name", "http"), ("targetPort", "8080")]

/-- A port entry named `http` with target port `9090`. -/
def entryH2 : PortEntry := [("name", "http"), ("targetPort", "9090")]

/-- The port list of a first Service object: two ports. -/
def svcPortsA : List JValue :=
  [JValue.obj [("name", JValue.str "http"), ("targetPort", JValue.num 8080)],
   JValue.obj [("name", JValue.str "https"), ("targetPort", JValue.num 8443)]]

/-- The port list of a second Service object: one port. -/
def svcPortsB : List JValue :=
  [JValue.obj [("name", JValue.str "web"), ("targetPort", JValue.num 9090)]]

theorem lookupField_setField_self (m : JObj) (k : String) (v : JValue) :
    lookupField (setField m k v) k = some v := by
  induction m with
  | nil => simp [setField, lookupField]
  | cons p m ih =>
    by_cases h : p.1 = k <;> simp [setField, lookupField, h, ih]

theorem lookupField_setField_ne (m : JObj) (k k' : String) (v : JValue) (h : k' ≠ k) :
    lookupField (setField m k v) k' = lookupField m k' := by
  induction m with
  | nil => simp [setField, lookupField, Ne.symm h]
  | cons p m ih =>
    by_cases hp : p.1 = k
    · simp [setField, lookupField, hp, Ne.symm h]
    · by_cases hp' : p.1 = k' <;> simp [setField, lookupField, hp, hp', h, ih]

theorem lookupField_removeField_self (m : JObj) (k : String) :
    lookupField (removeField m k) k = none := by
  induction m with
  | nil => simp [removeField, lookupField]
  | cons p m ih =>
    by_cases h : p.1 = k <;> simp [removeField, lookupField, h, ih]

theorem lookupField_removeField_ne (m : JObj) (k k' : String) (h : k' ≠ k) :
    lookupField (removeField m k) k' = lookupField m k' := by
  induction m with
  | nil => simp [removeField, lookupField]
  | cons p m ih =>
    by_cases hp : p.1 = k
    · simp [removeField, lookupField, hp, Ne.symm h, ih]
    · by_cases hp' : p.1 = k' <;> simp [removeField, lookupField, hp, hp', h, ih]

theorem nestedGet_single (m : JObj) (f : String) :
    nestedGet (JValue.obj m) [f] =
      match lookupField m f with
      | none => FieldResult.missing
      | some v => FieldResult.found v := by
  cases h : lookupField m f <;> simp [nestedGet, h]

theorem dcRewrite_ne_errReturn (root : JObj) (e : String) :
    dcRewrite root ≠ GoOutcome.errReturn e := by
  simp only [dcRewrite, nestedGet_single]
  rcases h : lookupField (setField (setField root "apiVersion" (JValue.str "apps/v1")) "kind"
      (JValue.str "Deployment")) "spec" with _ | v
  · simp
  · cases v <;> simp only []
    case obj spec0 =>
      rcases h2 : nestedMapGet
          (JValue.obj (removeField (removeField (removeField spec0 "strategy") "test") "triggers"))
          ["selector", "matchLabels"] with e2 | o2
      · simp
      · rcases o2 with _ | ml
        · rcases h3 : nestedMapGet
              (JValue.obj (removeField (removeField (removeField spec0 "strategy") "test") "triggers"))
              ["selector"] with e3 | o3
          · simp
          · rcases o3 with _ | sel
            · simp
            · rcases h4 : setNested2
                  (removeField (removeField (removeField (removeField spec0 "strategy") "test") "triggers") "selector")
                  "selector" "matchLabels" (JValue.obj sel) with s4 | e4 <;> simp
        · simp
    all_goals simp

/-- Claim C4, counterexample.  A DeploymentConfig with no `spec` and a Route
with no `spec.to` abort through a runtime panic (a failed type assertion on a
nil interface), and a Route with no `spec.port.targetPort` aborts through
`log.Fatalf` after the empty port makes the ingress JSON unparseable: none of
the three mandatory-rewrite failure cases returns a StructuralError to the
caller, contrary to the claim. -/
theorem c4_counterexample :
    dcRewrite dcNoSpec = GoOutcome.crash assertMapMsg ∧
    routeRewrite [] routeNoTo = GoOutcome.crash assertMapMsg ∧
    routeRewrite [] routeNoPort = GoOutcome.fatalExit
      ("::: ERROR - Route - failed to get the 'service name': mysvc from the 'route' object\n") :=
  ⟨rfl, rfl, rfl⟩

/-- Claim C4, amended.  An object undergoing a mandatory rewrite with the
required nested field absent does abort the whole run, but never through an
error propagated to the caller: the DeploymentConfig rewrite returns no error
value on any input (the error branch guards a one-field lookup that cannot
fail), a missing `spec` or `spec.to` aborts via runtime panic, and a missing
`spec.port.targetPort` aborts via a fatal log exit when the ingress JSON with
an empty port number fails to unmarshal. -/
theorem c4_amended :
    (∀ (root : JObj) (e : String), dcRewrite root ≠ GoOutcome.errReturn e) ∧
    dcRewrite dcNoSpec = GoOutcome.crash assertMapMsg ∧
    (∀ iter : SvcIndex, routeRewrite iter routeNoTo = GoOutcome.crash assertMapMsg) ∧
    routeRewrite [] routeNoPort = GoOutcome.fatalExit
      ("::: ERROR - Route - failed to get the 'service name': mysvc from the 'route' object\n") :=
  ⟨dcRewrite_ne_errReturn, rfl, fun _ => rfl, rfl⟩

/-- Claim C5, counterexample.  A DeploymentConfig whose `spec` already
contains `selector.matchLabels` and also contains a `strategy` branch: the
rewrite removes `strategy` from the output `spec`, so the spec subtree is not
left unchanged apart from the API-version and kind updates. -/
theorem c5_counterexample :
    okSpec (dcRewrite dcWithMl) =
      some [("selector", JValue.obj [("matchLabels", JValue.obj [("app", JValue.str "x")])]),
            ("replicas", JValue.num 3)] ∧
    lookupField dcWithMlSpec "strategy" = some (JValue.obj [("type", JValue.str "Rolling")]) :=
  ⟨rfl, rfl⟩

/-- Claim C5, amended.  For a DeploymentConfig whose `spec` already contains a
`selector.matchLabels` nested map, the rewrite succeeds and leaves the output
`spec` unchanged apart from the removal of `strategy`, `test` and `triggers`
(besides the API-version and kind updates); in particular the selector is not
restructured. -/
theorem c5_amended (root spec sel ml : JObj)
    (hspec : lookupField root "spec" = some (JValue.obj spec))
    (hsel : lookupField spec "selector" = some (JValue.obj sel))
    (hml : lookupField sel "matchLabels" = some (JValue.obj ml)) :
    ∃ root', dcRewrite root = GoOutcome.ok root' ∧
      lookupField root' "apiVersion" = some (JValue.str "apps/v1") ∧
      lookupField root' "kind" = some (JValue.str "Deployment") ∧
      ∃ spec', lookupField root' "spec" = some (JValue.obj spec') ∧
        lookupField spec' "strategy" = none ∧
        lookupField spec' "test" = none ∧
        lookupField spec' "triggers" = none ∧
        ∀ k, k ≠ "strategy" → k ≠ "test" → k ≠ "triggers" →
          lookupField spec' k = lookupField spec k := by
  have h1 : lookupField (setField (setField root "apiVersion" (JValue.str "apps/v1")) "kind"
      (JValue.str "Deployment")) "spec" = some (JValue.obj spec) := by
    rw [lookupField_setField_ne _ _ _ _ (by decide), lookupField_setField_ne _ _ _ _ (by decide), hspec]
  have hsel1 : lookupField (removeField (removeField (removeField spec "strategy") "test") "triggers")
      "selector" = some (JValue.obj sel) := by
    rw [lookupField_removeField_ne _ _ _ (by decide), lookupField_removeField_ne _ _ _ (by decide),
      lookupField_removeField_ne _ _ _ (by decide), hsel]
  have hmg : nestedMapGet
      (JValue.obj (removeField (removeField (removeField spec "strategy") "test") "triggers"))
      ["selector", "matchLabels"] = Except.ok (some ml) := by
    simp [nestedMapGet, nestedGet, hsel1, hml]
  have hdc : dcRewrite root = GoOutcome.ok
      (setField (setField (setField root "apiVersion" (JValue.str "apps/v1")) "kind"
        (JValue.str "Deployment")) "spec"
        (JValue.obj (removeField (removeField (removeField spec "strategy") "test") "triggers"))) := by
    simp only [dcRewrite, nestedGet_single, h1, hmg]
  refine ⟨_, hdc, ?_, ?_, _, lookupField_setField_self _ _ _, ?_, ?_, ?_, ?_⟩
  · rw [lookupField_setField_ne _ _ _ _ (by decide), lookupField_setField_ne _ _ _ _ (by decide),
      lookupField_setField_self]
  · rw [lookupField_setField_ne _ _ _ _ (by decide), lookupField_setField_self]
  · rw [lookupField_removeField_ne _ _ _ (by decide), lookupField_removeField_ne _ _ _ (by decide),
      lookupField_removeField_self]
  · rw [lookupField_removeField_ne _ _ _ (by decide), lookupField_removeField_self]
  · rw [lookupField_removeField_self]
  · intro k hk1 hk2 hk3
    rw [lookupField_removeField_ne _ _ _ hk3, lookupField_removeField_ne _ _ _ hk2,
      lookupField_removeField_ne _ _ _ hk1]

/-- Claim C5, amended, witness at `dcWithMl`. -/
theorem c5_amended_witness :
    lookupField dcWithMl "spec" = some (JValue.obj dcWithMlSpec) ∧
    (∃ root', dcRewrite dcWithMl = GoOutcome.ok root' ∧
      lookupField root' "apiVersion" = some (JValue.str "apps/v1") ∧
      lookupField root' "kind" = some (JValue.str "Deployment") ∧
      ∃ spec', lookupField root' "spec" = some (JValue.obj spec') ∧
        lookupField spec' "strategy" = none ∧
        lookupField spec' "test" = none ∧
        lookupField spec' "triggers" = none ∧
        ∀ k, k ≠ "strategy" → k ≠ "test" → k ≠ "triggers" →
          lookupField spec' k = lookupField dcWithMlSpec k) :=
  ⟨rfl, c5_amended dcWithMl dcWithMlSpec
    [("matchLabels", JValue.obj [("app", JValue.str "x")])]
    [("app", JValue.str "x")] rfl rfl rfl⟩

/-- Claim C6.  For a DeploymentConfig whose `spec` has a flat `selector` map
and no `selector.matchLabels`, the rewrite sets `apiVersion` to `apps/v1` and
`kind` to `Deployment`, removes `spec.strategy`, `spec.test` and
`spec.triggers` (their absence is not an error: the conclusion holds whether
or not they were present), and produces `selector.matchLabels` holding exactly
the original flat map, with no flat selector entry remaining and every other
`spec` field untouched. -/
theorem c6_theorem (root spec sel : JObj)
    (hspec : lookupField root "spec" = some (JValue.obj spec))
    (hsel : lookupField spec "selector" = some (JValue.obj sel))
    (hml : lookupField sel "matchLabels" = none) :
    ∃ root', dcRewrite root = GoOutcome.ok root' ∧
      lookupField root' "apiVersion" = some (JValue.str "apps/v1") ∧
      lookupField root' "kind" = some (JValue.str "Deployment") ∧
      ∃ spec', lookupField root' "spec" = some (JValue.obj spec') ∧
        lookupField spec' "strategy" = none ∧
        lookupField spec' "test" = none ∧
        lookupField spec' "triggers" = none ∧
        lookupField spec' "selector" = some (JValue.obj [("matchLabels", JValue.obj sel)]) ∧
        ∀ k, k ≠ "strategy" → k ≠ "test" → k ≠ "triggers" → k ≠ "selector" →
          lookupField spec' k = lookupField spec k := by
  have h1 : lookupField (setField (setField root "apiVersion" (JValue.str "apps/v1")) "kind"
      (JValue.str "Deployment")) "spec" = some (JValue.obj spec) := by
    rw [lookupField_setField_ne _ _ _ _ (by decide), lookupField_setField_ne _ _ _ _ (by decide), hspec]
  have hsel1 : lookupField (removeField (removeField (removeField spec "strategy") "test") "triggers")
      "selector" = some (JValue.obj sel) := by
    rw [lookupField_removeField_ne _ _ _ (by decide), lookupField_removeField_ne _ _ _ (by decide),
      lookupField_removeField_ne _ _ _ (by decide), hsel]
  have hmg : nestedMapGet
      (JValue.obj (removeField (removeField (removeField spec "strategy") "test") "triggers"))
      ["selector", "matchLabels"] = Except.ok none := by
    simp [nestedMapGet, nestedGet, hsel1, hml]
  have hmg2 : nestedMapGet
      (JValue.obj (removeField (removeField (removeField spec "strategy") "test") "triggers"))
      ["selector"] = Except.ok (some sel) := by
    simp [nestedMapGet, nestedGet_single, hsel1]
  have hset : setNested2
      (removeField (removeField (removeField (removeField spec "strategy") "test") "triggers") "selector")
      "selector" "matchLabels" (JValue.obj sel) = Except.ok
      (setField (removeField (removeField (removeField (removeField spec "strategy") "test") "triggers") "selector")
        "selector" (JValue.obj [("matchLabels", JValue.obj sel)])) := by
    simp [setNested2, lookupField_removeField_self]
  have hdc : dcRewrite root = GoOutcome.ok
      (setField (setField (setField root "apiVersion" (JValue.str "apps/v1")) "kind"
        (JValue.str "Deployment")) "spec"
        (JValue.obj
          (setField (removeField (removeField (removeField (removeField spec "strategy") "test") "triggers") "selector")
            "selector" (JValue.obj [("matchLabels", JValue.obj sel)])))) := by
    simp only [dcRewrite, nestedGet_single, h1, hmg, hmg2, hset]
  refine ⟨_, hdc, ?_, ?_, _, lookupField_setField_self _ _ _, ?_, ?_, ?_,
    lookupField_setField_self _ _ _, ?_⟩
  · rw [lookupField_setField_ne _ _ _ _ (by decide), lookupField_setField_ne _ _ _ _ (by decide),
      lookupField_setField_self]
  · rw [lookupField_setField_ne _ _ _ _ (by decide), lookupField_setField_self]
  · rw [lookupField_setField_ne _ _ _ _ (by decide), lookupField_removeField_ne _ _ _ (by decide),
      lookupField_removeField_ne _ _ _ (by decide), lookupField_removeField_ne _ _ _ (by decide),
      lookupField_removeField_self]
  · rw [lookupField_setField_ne _ _ _ _ (by decide), lookupField_removeField_ne _ _ _ (by decide),
      lookupField_removeField_ne _ _ _ (by decide), lookupField_removeField_self]
  · rw [lookupField_setField_ne _ _ _ _ (by decide), lookupField_removeField_ne _ _ _ (by decide),
      lookupField_removeField_self]
  · intro k hk1 hk2 hk3 hk4
    rw [lookupField_setField_ne _ _ _ _ hk4, lookupField_removeField_ne _ _ _ hk4,
      lookupField_removeField_ne _ _ _ hk3, lookupField_removeField_ne _ _ _ hk2,
      lookupField_removeField_ne _ _ _ hk1]

/-- Claim C6, witness at `dcFlat`. -/
theorem c6_witness :
    lookupField dcFlat "spec" = some (JValue.obj dcFlatSpec) ∧
    lookupField dcFlatSpec "selector" =
      some (JValue.obj [("app", JValue.str "x"), ("deploymentconfig", JValue.str "x")]) ∧
    (∃ root', dcRewrite dcFlat = GoOutcome.ok root' ∧
      lookupField root' "apiVersion" = some (JValue.str "apps/v1") ∧
      lookupField root' "kind" = some (JValue.str "Deployment") ∧
      ∃ spec', lookupField root' "spec" = some (JValue.obj spec') ∧
        lookupField spec' "strategy" = none ∧
        lookupField spec' "test" = none ∧
        lookupField spec' "triggers" = none ∧
        lookupField spec' "selector" =
          some (JValue.obj [("matchLabels",
            JValue.obj [("app", JValue.str "x"), ("deploymentconfig", JValue.str "x")])]) ∧
        ∀ k, k ≠ "strategy" → k ≠ "test" → k ≠ "triggers" → k ≠ "selector" →
          lookupField spec' k = lookupField dcFlatSpec k) :=
  ⟨rfl, rfl, c6_theorem dcFlat dcFlatSpec
    [("app", JValue.str "x"), ("deploymentconfig", JValue.str "x")] rfl rfl rfl⟩

theorem routeLookup_no_match (tp : String) (iter : SvcIndex)
    (h : ∀ p ∈ iter, lookupStr p.2 "name" ≠ tp) :
    routeLookup (JValue.str tp) iter = "" := by
  induction iter with
  | nil => rfl
  | cons p rest ih =>
    have hp := h p (List.mem_cons_self p rest)
    have hm : tpMatches (JValue.str tp) (lookupStr p.2 "name") = false := by
      simp only [tpMatches, beq_eq_false_iff_ne]
      exact Ne.symm hp
    simp only [routeLookup, hm, Bool.false_eq_true, if_false]
    exact ih (fun q hq => h q (List.mem_cons_of_mem _ hq))

theorem routeLookup_agree (tp v : String) (l : SvcIndex)
    (hex : ∃ p ∈ l, lookupStr p.2 "name" = tp)
    (hall : ∀ p ∈ l, lookupStr p.2 "name" = tp → lookupStr p.2 "targetPort" = v) :
    routeLookup (JValue.str tp) l = v := by
  induction l with
  | nil => rcases hex with ⟨p, hp, _⟩; cases hp
  | cons p rest ih =>
    by_cases hm : lookupStr p.2 "name" = tp
    · have ht : tpMatches (JValue.str tp) (lookupStr p.2 "name") = true := by
        simp [tpMatches, hm]
      simp only [routeLookup, ht, if_true]
      exact hall p (List.mem_cons_self _ _) hm
    · have ht : tpMatches (JValue.str tp) (lookupStr p.2 "name") = false := by
        simp only [tpMatches, beq_eq_false_iff_ne]
        exact Ne.symm hm
      simp only [routeLookup, ht, Bool.false_eq_true, if_false]
      apply ih
      · rcases hex with ⟨q, hq, hqn⟩
        rcases List.mem_cons.mp hq with rfl | hq'
        · exact absurd hqn hm
        · exact ⟨q, hq', hqn⟩
      · exact fun q hq hqn => hall q (List.mem_cons_of_mem _ hq) hqn

/-- Claim C1, counterexample.  A Route whose `spec.port.targetPort` (`web`)
matches no entry of an empty Service Port Index does not complete without
fatal failure: the empty port number makes the constructed ingress JSON
unparseable and the unmarshal error hits `checkErr`, i.e. `log.Fatalf`. -/
theorem c1_counterexample :
    routeRewrite [] routeC1 = GoOutcome.fatalExit
      ("::: ERROR - Route - failed to get the 'service name': mysvc from the 'route' object\n") := rfl

/-- Claim C1, amended.  For every Service Port Index iteration order in which
no entry's `name` equals the route's target port reference, the resolved port
stays the empty string, the interpolated ingress JSON fails to unmarshal, and
the route rewrite aborts the run through a fatal log exit instead of emitting
an ingress with an empty port number. -/
theorem c1_amended (iter : SvcIndex)
    (h : ∀ p ∈ iter, lookupStr p.2 "name" ≠ "web") :
    routeRewrite iter routeC1 = GoOutcome.fatalExit
      ("::: ERROR - Route - failed to get the 'service name': mysvc from the 'route' object\n") := by
  have hL : routeLookup (JValue.str "web") iter = "" := routeLookup_no_match "web" iter h
  show buildIngress routeC1 "mysvc" (routeLookup (JValue.str "web") iter) = _
  rw [hL]
  rfl

/-- Claim C1, amended, witness at a one-entry index named `http`. -/
theorem c1_amended_witness :
    (∀ p ∈ [((0 : Nat), entryH1)], lookupStr p.2 "name" ≠ "web") ∧
    routeRewrite [((0 : Nat), entryH1)] routeC1 = GoOutcome.fatalExit
      ("::: ERROR - Route - failed to get the 'service name': mysvc from the 'route' object\n") :=
  ⟨by decide, c1_amended [((0 : Nat), entryH1)] (by decide)⟩

/-- Claim C3, counterexample.  Two index entries named `http` with target
ports `8080` and `9090`: the resolution loop ranges over a Go map, whose
iteration order is an unspecified permutation of the entries; the reversed
order — a permutation of the same index — resolves to `9090`, so the
earlier-inserted entry does not win on every run. -/
theorem c3_counterexample :
    routeLookup (JValue.str "http") [(0, entryH1), (2, entryH2)] = "8080" ∧
    routeLookup (JValue.str "http") [(2, entryH2), (0, entryH1)] = "9090" ∧
    List.Perm [((2 : Nat), entryH2), ((0 : Nat), entryH1)]
      [((0 : Nat), entryH1), ((2 : Nat), entryH2)] :=
  ⟨rfl, rfl, List.Perm.swap _ _ _⟩

/-- Claim C3, amended.  The port written into the ingress backend is the
`targetPort` of the first entry matching the route's target port reference in
the map's iteration order, an unspecified permutation of the index; whenever
every matching entry agrees on the target port — in particular when exactly
one entry matches — that value is resolved on every run, but with conflicting
duplicate names the winner depends on the iteration order. -/
theorem c3_amended (idx iter : SvcIndex) (tp v : String)
    (hperm : iter.Perm idx)
    (hex : ∃ p ∈ idx, lookupStr p.2 "name" = tp)
    (hall : ∀ p ∈ idx, lookupStr p.2 "name" = tp → lookupStr p.2 "targetPort" = v) :
    routeLookup (JValue.str tp) iter = v := by
  apply routeLookup_agree
  · rcases hex with ⟨p, hp, hn⟩
    exact ⟨p, hperm.mem_iff.mpr hp, hn⟩
  · exact fun p hp hn => hall p (hperm.mem_iff.mp hp) hn

/-- Claim C3, amended, witness at a one-entry index. -/
theorem c3_amended_witness :
    List.Perm [((0 : Nat), entryH1)] [((0 : Nat), entryH1)] ∧
    (∃ p ∈ [((0 : Nat), entryH1)], lookupStr p.2 "name" = "http") ∧
    routeLookup (JValue.str "http") [((0 : Nat), entryH1)] = "8080" :=
  ⟨List.Perm.refl _, by decide,
    c3_amended [((0 : Nat), entryH1)] [((0 : Nat), entryH1)] "http" "8080"
      (List.Perm.refl _) (by decide) (by decide)⟩

/-- Claim C8, counterexample.  A Service whose port list cannot be located
does not log and continue: the nil interface fails the
`getServicePorts.([]interface{})` type assertion and the run aborts with a
runtime panic. -/
theorem c8_counterexample :
    serviceCase [] svcNoPorts = GoOutcome.crash assertSliceMsg := rfl

/-- Claim C8, amended.  A Service whose port list cannot be located aborts the
run with a runtime panic (failed type assertion), for any accumulated index;
only a present but empty port list continues non-fatally with an empty
contribution, leaving the index unchanged. -/
theorem c8_amended :
    (∀ idx : SvcIndex, serviceCase idx svcNoPorts = GoOutcome.crash assertSliceMsg) ∧
    (∀ idx : SvcIndex, serviceCase idx svcEmptyPorts = GoOutcome.ok idx) :=
  ⟨fun _ => rfl, fun _ => rfl⟩

/-- Claim C2 (code bug).  The first Service's two-port list is stored under
keys 0 and 2, because the loop adds the current map length to the slice
position and the length grows during the loop; the second Service's single
port then gets key 0 + 2 = 2, which is already present, and overwrites the
first Service's second entry (`https`/`8443`): index keys do collide across
successive Service objects. -/
theorem c2_theorem :
    portsUpdateAux [] 0 svcPortsA =
      GoOutcome.ok [(0, [("name", "http"), ("targetPort", "8080")]),
                    (2, [("name", "https"), ("targetPort", "8443")])] ∧
    foldPorts [] [svcPortsA, svcPortsB] =
      GoOutcome.ok [(0, [("name", "http"), ("targetPort", "8080")]),
                    (2, [("name", "web"), ("targetPort", "9090")])] :=
  ⟨rfl, rfl⟩

theorem bucketLookup_append_single (m : List (String × List Char)) (k k' : String) (d : List Char) :
    bucketLookup (m ++ [(k, d)]) k' =
      match bucketLookup m k' with
      | some b => some b
      | none => if k' = k then some d else none := by
  induction m with
  | nil =>
    by_cases h : k' = k
    · simp [bucketLookup, h]
    · have h2 : ¬ k = k' := fun hh => h (Eq.symm hh)
      simp [bucketLookup, h, h2]
  | cons p m ih =>
    by_cases hp : p.1 = k' <;> simp [bucketLookup, hp, ih]

theorem bucketLookup_bucketReplace (m : List (String × List Char)) (k k' : String)
    (d old : List Char) (hm : bucketLookup m k = some old) :
    bucketLookup (bucketReplace m k d) k' =
      if k' = k then some d else bucketLookup m k' := by
  induction m with
  | nil => cases hm
  | cons p m ih =>
    by_cases hp : p.1 = k
    · simp only [bucketReplace, if_pos hp]
      by_cases h : k' = k
      · simp [bucketLookup, h]
      · have hp' : ¬ p.1 = k' := by
          rw [hp]; exact fun hh => h (Eq.symm hh)
        have hkk' : ¬ k = k' := fun hh => h (Eq.symm hh)
        simp [bucketLookup, h, hp', hkk']
    · have hm' : bucketLookup m k = some old := by
        simpa [bucketLookup, hp] using hm
      simp only [bucketReplace, if_neg hp]
      by_cases hp' : p.1 = k'
      · have h : ¬ k' = k := fun hh => hp (hp'.trans hh)
        simp [bucketLookup, hp', h]
      · simp [bucketLookup, hp', ih hm']

theorem bucketLookup_bucketAdd (m : List (String × List Char)) (k k' : String) (d : List Char) :
    bucketLookup (bucketAdd m k d) k' =
      if k' = k then
        (match bucketLookup m k with
         | none => some d
         | some old => some (old ++ docSeparator ++ d))
      else bucketLookup m k' := by
  unfold bucketAdd
  cases hm : bucketLookup m k
  · rw [bucketLookup_append_single]
    by_cases h : k' = k
    · subst h
      rw [hm]
    · cases hmk' : bucketLookup m k' <;> simp [h]
  · rw [bucketLookup_bucketReplace m k k' _ _ hm]

theorem aggregate_general (k : String) (items : List (String × List Char)) :
    ∀ m : List (String × List Char),
    bucketLookup (items.foldl (fun m kd => bucketAdd m kd.1 kd.2) m) k =
      match bucketLookup m k with
      | some b => some (b ++ withSep (kindData k items))
      | none =>
        match kindData k items with
        | [] => none
        | d :: ds => some (d ++ withSep ds) := by
  induction items with
  | nil =>
    intro m
    cases hm : bucketLookup m k <;> simp [kindData, withSep, List.foldl_nil, hm]
  | cons kd rest ih =>
    intro m
    rw [List.foldl_cons, ih (bucketAdd m kd.1 kd.2), bucketLookup_bucketAdd]
    by_cases hk : k = kd.1
    · subst hk
      have hfil : kindData kd.1 (kd :: rest) = kd.2 :: kindData kd.1 rest := by
        simp [kindData, List.filter_cons]
      rw [hfil, if_pos rfl]
      cases hm : bucketLookup m kd.1
      · simp [withSep, hm]
      · simp [withSep, hm, List.append_assoc]
    · have hk' : ¬ kd.1 = k := fun h => hk (Eq.symm h)
      have hfil : kindData k (kd :: rest) = kindData k rest := by
        simp [kindData, List.filter_cons, hk']
      rw [hfil, if_neg hk]

/-- Claim C9.  Within each kind bucket the serialized objects appear in Bundle
encounter order, consecutive objects separated by exactly one copy of the
4-byte document separator, with no separator before the first object or after
the last (the bucket equals `sepJoin` of the kind's documents). -/
theorem c9_theorem (items : List (String × List Char)) (k : String)
    (hne : kindData k items ≠ []) :
    bucketLookup (aggregate items) k = some (sepJoin (kindData k items)) ∧
    docSeparator.length = 4 := by
  refine ⟨?_, rfl⟩
  have h := aggregate_general k items []
  unfold aggregate
  rw [h]
  cases hd : kindData k items with
  | nil => exact absurd hd hne
  | cons d ds => simp [bucketLookup, sepJoin]

/-- Claim C9, witness: two Deployment documents and one Service document. -/
theorem c9_witness :
    kindData "deployment" [("deployment", ['a']), ("service", ['c']), ("deployment", ['b'])] ≠ [] ∧
    bucketLookup (aggregate [("deployment", ['a']), ("service", ['c']), ("deployment", ['b'])])
        "deployment" =
      some (sepJoin (kindData "deployment"
        [("deployment", ['a']), ("service", ['c']), ("deployment", ['b'])])) ∧
    docSeparator.length = 4 :=
  ⟨by decide,
    c9_theorem [("deployment", ['a']), ("service", ['c']), ("deployment", ['b'])] "deployment"
      (by decide)⟩

theorem isPrefB_nil_left (s : List Char) : isPrefB [] s = true := by
  cases s <;> rfl

theorem isPrefB_cons (d c : Char) (v s : List Char) :
    isPrefB (d :: v) (c :: s) = if d = c then isPrefB v s else false := rfl

theorem occursB_cons (p : List Char) (c : Char) (s : List Char) :
    occursB p (c :: s) = (isPrefB p (c :: s) || occursB p s) := rfl

theorem isPrefB_of_append (v a x : List Char) (h : isPrefB v (a ++ x) = true)
    (hl : v.length ≤ a.length) : isPrefB v a = true := by
  induction v generalizing a with
  | nil => exact isPrefB_nil_left a
  | cons d v ih =>
    cases a with
    | nil => simp at hl
    | cons b a' =>
      rw [List.cons_append, isPrefB_cons] at h
      rw [isPrefB_cons]
      by_cases hd : d = b
      · rw [if_pos hd] at h ⊢
        exact ih a' h (by simp only [List.length_cons] at hl; omega)
      · rw [if_neg hd] at h
        cases h

theorem occursB_append (c0 : Char) (pt a x : List Char) (hna : c0 ∉ a) :
    occursB (c0 :: pt) (a ++ x) = occursB (c0 :: pt) x := by
  induction a with
  | nil => rfl
  | cons b a' ih =>
    have hb1 : c0 ≠ b := fun hh => hna (hh ▸ List.mem_cons_self b a')
    have hb2 : c0 ∉ a' := fun hh => hna (List.mem_cons_of_mem b hh)
    rw [List.cons_append, occursB_cons, isPrefB_cons, if_neg hb1, ih hb2]
    rfl

theorem occursB_tail (p : List Char) (c : Char) (s : List Char)
    (h : occursB p (c :: s) = false) : occursB p s = false := by
  rw [occursB_cons] at h
  simp only [Bool.or_eq_false_iff] at h
  exact h.2

theorem occursB_drop (p : List Char) (k : Nat) :
    ∀ s : List Char, occursB p s = false → occursB p (s.drop k) = false := by
  induction k with
  | zero => intro s h; simpa using h
  | succ k ih =>
    intro s h
    cases s with
    | nil => simpa using h
    | cons c s' =>
      rw [List.drop_succ_cons]
      exact ih s' (occursB_tail p c s' h)

theorem replaceAll_nil (pat rep : List Char) : replaceAll pat rep [] = [] := by
  rw [replaceAll]

theorem replaceAll_pos (pat rep : List Char) (c : Char) (s : List Char)
    (h1 : pat.length ≠ 0) (h2 : isPrefB pat (c :: s) = true) :
    replaceAll pat rep (c :: s) = rep ++ replaceAll pat rep (s.drop (pat.length - 1)) := by
  rw [replaceAll, if_pos ⟨h1, h2⟩]

theorem replaceAll_neg (pat rep : List Char) (c : Char) (s : List Char)
    (h : ¬ (pat.length ≠ 0 ∧ isPrefB pat (c :: s) = true)) :
    replaceAll pat rep (c :: s) = c :: replaceAll pat rep s := by
  rw [replaceAll, if_neg h]

theorem drop_pref_track (a : Char) (pt rep pB : List Char)
    (hlen : (a :: pt).length ≤ rep.length)
    (hdrops : ∀ j, 0 < j → j < (a :: pt).length → isPrefB ((a :: pt).drop j) rep = false) :
    ∀ (s : List Char) (j : Nat), 0 < j → j ≤ (a :: pt).length →
      isPrefB ((a :: pt).drop j) (replaceAll pB rep s) = true →
      isPrefB ((a :: pt).drop j) s = true := by
  intro s
  induction s with
  | nil =>
    intro j hj0 hjle h
    rw [replaceAll_nil] at h
    cases hv : (a :: pt).drop j with
    | nil => exact isPrefB_nil_left _
    | cons d v' => rw [hv] at h; simp [isPrefB] at h
  | cons c s' ih =>
    intro j hj0 hjle h
    by_cases hg : pB.length ≠ 0 ∧ isPrefB pB (c :: s') = true
    · rw [replaceAll_pos pB rep c s' hg.1 hg.2] at h
      cases hv : (a :: pt).drop j with
      | nil => exact isPrefB_nil_left _
      | cons d v' =>
        exfalso
        have hjlt : j < (a :: pt).length := by
          by_contra hcon
          have hnil : (a :: pt).drop j = [] := List.drop_eq_nil_of_le (by omega)
          rw [hnil] at hv; cases hv
        have hvlen : (d :: v').length ≤ rep.length := by
          rw [← hv, List.length_drop]; omega
        rw [hv] at h
        have hpre : isPrefB (d :: v') rep = true :=
          isPrefB_of_append _ _ _ h hvlen
        have hd := hdrops j hj0 hjlt
        rw [hv] at hd
        rw [hd] at hpre
        cases hpre
    · rw [replaceAll_neg pB rep c s' hg] at h
      cases hv : (a :: pt).drop j with
      | nil => exact isPrefB_nil_left _
      | cons d v' =>
        have hjlt : j < (a :: pt).length := by
          by_contra hcon
          have hnil : (a :: pt).drop j = [] := List.drop_eq_nil_of_le (by omega)
          rw [hnil] at hv; cases hv
        have hv' : (a :: pt).drop (j + 1) = v' := by
          have h11 : ((a :: pt).drop j).drop 1 = (a :: pt).drop (j + 1) :=
            List.drop_drop 1 j (a :: pt)
          rw [hv] at h11
          simp only [List.drop_one, List.tail_cons] at h11
          exact h11.symm
        rw [hv] at h
        rw [isPrefB_cons] at h ⊢
        by_cases hdc : d = c
        · rw [if_pos hdc] at h ⊢
          have harg : isPrefB ((a :: pt).drop (j + 1)) (replaceAll pB rep s') = true := by
            rw [hv']; exact h
          have hres := ih (j + 1) (by omega) (by omega) harg
          rw [hv'] at hres
          exact hres
        · rw [if_neg hdc] at h
          cases h

theorem replaceAll_no_self (a : Char) (pt rep : List Char)
    (hna : a ∉ rep)
    (hlen : (a :: pt).length ≤ rep.length)
    (hdrops : ∀ j, 0 < j → j < (a :: pt).length → isPrefB ((a :: pt).drop j) rep = false) :
    ∀ (n : Nat) (s : List Char), s.length ≤ n →
      occursB (a :: pt) (replaceAll (a :: pt) rep s) = false := by
  intro n
  induction n with
  | zero =>
    intro s hs
    have hz : s = [] := List.eq_nil_of_length_eq_zero (Nat.le_zero.mp hs)
    subst hz
    rw [replaceAll_nil]
    rfl
  | succ n ih =>
    intro s hs
    cases s with
    | nil => rw [replaceAll_nil]; rfl
    | cons c s' =>
      by_cases hg : (a :: pt).length ≠ 0 ∧ isPrefB (a :: pt) (c :: s') = true
      · rw [replaceAll_pos _ _ _ _ hg.1 hg.2, occursB_append a pt rep _ hna]
        apply ih
        simp only [List.length_cons] at hs
        rw [List.length_drop]
        omega
      · rw [replaceAll_neg _ _ _ _ hg, occursB_cons]
        have h2 : occursB (a :: pt) (replaceAll (a :: pt) rep s') = false := by
          apply ih
          simp only [List.length_cons] at hs
          omega
        rw [h2]
        suffices hpref : isPrefB (a :: pt) (c :: replaceAll (a :: pt) rep s') = false by
          rw [hpref]; rfl
        rw [isPrefB_cons]
        by_cases hac : a = c
        · rw [if_pos hac]
          cases hres : isPrefB pt (replaceAll (a :: pt) rep s')
          · rfl
          · exfalso
            have harg : isPrefB ((a :: pt).drop 1) (replaceAll (a :: pt) rep s') = true := hres
            have htr := drop_pref_track a pt rep (a :: pt) hlen hdrops s' 1 (by omega)
              (by simp only [List.length_cons]; omega) harg
            apply hg
            refine ⟨by simp, ?_⟩
            rw [isPrefB_cons, if_pos hac]
            exact htr
        · rw [if_neg hac]

theorem replaceAll_no_create (a : Char) (pt rep pB : List Char)
    (hna : a ∉ rep)
    (hlen : (a :: pt).length ≤ rep.length)
    (hdrops : ∀ j, 0 < j → j < (a :: pt).length → isPrefB ((a :: pt).drop j) rep = false) :
    ∀ (n : Nat) (s : List Char), s.length ≤ n → occursB (a :: pt) s = false →
      occursB (a :: pt) (replaceAll pB rep s) = false := by
  intro n
  induction n with
  | zero =>
    intro s hs h0
    have hz : s = [] := List.eq_nil_of_length_eq_zero (Nat.le_zero.mp hs)
    subst hz
    rw [replaceAll_nil]
    exact h0
  | succ n ih =>
    intro s hs h0
    cases s with
    | nil => rw [replaceAll_nil]; exact h0
    | cons c s' =>
      by_cases hg : pB.length ≠ 0 ∧ isPrefB pB (c :: s') = true
      · rw [replaceAll_pos _ _ _ _ hg.1 hg.2, occursB_append a pt rep _ hna]
        apply ih
        · simp only [List.length_cons] at hs
          rw [List.length_drop]
          omega
        · exact occursB_drop _ _ _ (occursB_tail _ _ _ h0)
      · rw [replaceAll_neg _ _ _ _ hg, occursB_cons]
        have h2 := ih s' (by simp only [List.length_cons] at hs; omega) (occursB_tail _ _ _ h0)
        rw [h2]
        suffices hpref : isPrefB (a :: pt) (c :: replaceAll pB rep s') = false by
          rw [hpref]; rfl
        rw [isPrefB_cons]
        by_cases hac : a = c
        · rw [if_pos hac]
          cases hres : isPrefB pt (replaceAll pB rep s')
          · rfl
          · exfalso
            have harg : isPrefB ((a :: pt).drop 1) (replaceAll pB rep s') = true := hres
            have htr := drop_pref_track a pt rep pB hlen hdrops s' 1 (by omega)
              (by simp only [List.length_cons]; omega) harg
            have hocc : isPrefB (a :: pt) (c :: s') = true := by
              rw [isPrefB_cons, if_pos hac]
              exact htr
            rw [occursB_cons, hocc] at h0
            simp at h0
        · rw [if_neg hac]

/-- Claim C7.  Substituting parameter `FOO` (default `bar`) over any bucket
replaces every short-form and then every braced-form token with the value
reference bound to the lower-cased name; afterwards the bucket contains zero
occurrences of either token and the values map holds the entry
`foo → "bar"`. -/
theorem c7_theorem (s : List Char)
    (h1 : occursB (shortTok "FOO").data s = true)
    (h2 : occursB (bracedTok "FOO").data s = true) :
    (paramsToValues [⟨"FOO", "bar"⟩] [] [s]).2 =
      [replaceAll (bracedTok "FOO").data (valueRef "foo").data
        (replaceAll (shortTok "FOO").data (valueRef "foo").data s)] ∧
    occursB (shortTok "FOO").data (substParam ⟨"FOO", "bar"⟩ s) = false ∧
    occursB (bracedTok "FOO").data (substParam ⟨"FOO", "bar"⟩ s) = false ∧
    (paramsToValues [⟨"FOO", "bar"⟩] [] [s]).1 = [("foo", "bar")] := by
  have esub : substParam ⟨"FOO", "bar"⟩ s =
      replaceAll (bracedTok "FOO").data (valueRef "foo").data
        (replaceAll (shortTok "FOO").data (valueRef "foo").data s) := rfl
  have e1 : (shortTok "FOO").data = '$' :: ['\x7b', 'F', 'O', 'O', '\x7d'] := rfl
  have e2 : (bracedTok "FOO").data =
      '$' :: ['\x7b', '\x7b', 'F', 'O', 'O', '\x7d', '\x7d'] := rfl
  have hno1 : occursB (shortTok "FOO").data
      (replaceAll (shortTok "FOO").data (valueRef "foo").data s) = false := by
    rw [e1]
    exact replaceAll_no_self '$' ['\x7b', 'F', 'O', 'O', '\x7d'] (valueRef "foo").data
      (by decide) (by decide)
      (by
        intro j hj1 hj2
        simp only [List.length_cons, List.length_nil] at hj2
        have hj : j = 1 ∨ j = 2 ∨ j = 3 ∨ j = 4 ∨ j = 5 := by omega
        rcases hj with rfl | rfl | rfl | rfl | rfl <;> decide)
      s.length s le_rfl
  have hno1' : occursB (shortTok "FOO").data (substParam ⟨"FOO", "bar"⟩ s) = false := by
    rw [esub, e1]
    refine replaceAll_no_create '$' ['\x7b', 'F', 'O', 'O', '\x7d'] (valueRef "foo").data
      (bracedTok "FOO").data (by decide) (by decide)
      (by
        intro j hj1 hj2
        simp only [List.length_cons, List.length_nil] at hj2
        have hj : j = 1 ∨ j = 2 ∨ j = 3 ∨ j = 4 ∨ j = 5 := by omega
        rcases hj with rfl | rfl | rfl | rfl | rfl <;> decide)
      _ _ le_rfl ?_
    rw [← e1]
    exact hno1
  have hno2 : occursB (bracedTok "FOO").data (substParam ⟨"FOO", "bar"⟩ s) = false := by
    rw [esub, e2]
    exact replaceAll_no_self '$' ['\x7b', '\x7b', 'F', 'O', 'O', '\x7d', '\x7d']
      (valueRef "foo").data
      (by decide) (by decide)
      (by
        intro j hj1 hj2
        simp only [List.length_cons, List.length_nil] at hj2
        have hj : j = 1 ∨ j = 2 ∨ j = 3 ∨ j = 4 ∨ j = 5 ∨ j = 6 ∨ j = 7 := by omega
        rcases hj with rfl | rfl | rfl | rfl | rfl | rfl | rfl <;> decide)
      _ _ le_rfl
  exact ⟨rfl, hno1', hno2, rfl⟩

/-- Claim C7, witness at the bucket `a${FOO}b${{FOO}}c`. -/
theorem c7_witness :
    occursB (shortTok "FOO").data "a$\x7bFOO\x7db$\x7b\x7bFOO\x7d\x7dc".data = true ∧
    occursB (bracedTok "FOO").data "a$\x7bFOO\x7db$\x7b\x7bFOO\x7d\x7dc".data = true ∧
    ((paramsToValues [⟨"FOO", "bar"⟩] [] ["a$\x7bFOO\x7db$\x7b\x7bFOO\x7d\x7dc".data]).2 =
      [replaceAll (bracedTok "FOO").data (valueRef "foo").data
        (replaceAll (shortTok "FOO").data (valueRef "foo").data
          "a$\x7bFOO\x7db$\x7b\x7bFOO\x7d\x7dc".data)] ∧
    occursB (shortTok "FOO").data
      (substParam ⟨"FOO", "bar"⟩ "a$\x7bFOO\x7db$\x7b\x7bFOO\x7d\x7dc".data) = false ∧
    occursB (bracedTok "FOO").data
      (substParam ⟨"FOO", "bar"⟩ "a$\x7bFOO\x7db$\x7b\x7bFOO\x7d\x7dc".data) = false ∧
    (paramsToValues [⟨"FOO", "bar"⟩] [] ["a$\x7bFOO\x7db$\x7b\x7bFOO\x7d\x7dc".data]).1 =
      [("foo", "bar")]) :=
  ⟨by decide, by decide, c7_theorem _ (by decide) (by decide)⟩

/-- Claim C10.  Two declared parameters whose names differ only in letter
case are both substituted with the same lower-cased value reference, and the
values map ends with a single entry under the shared lower-cased key holding
the later-declared parameter's default (the later declaration overwrites the
earlier). -/
theorem c10_theorem (n1 n2 v1 v2 : String) (files : List (List Char))
    (hn : goToLower n1 = goToLower n2) (hv1 : v1 ≠ "") (hv2 : v2 ≠ "") :
    (paramsToValues [⟨n1, v1⟩, ⟨n2, v2⟩] [] files).1 = [(goToLower n2, v2)] ∧
    (paramsToValues [⟨n1, v1⟩, ⟨n2, v2⟩] [] files).2 =
      (files.map (substParam ⟨n1, v1⟩)).map (substParam ⟨n2, v2⟩) ∧
    valueRef (goToLower n1) = valueRef (goToLower n2) := by
  refine ⟨?_, rfl, by rw [hn]⟩
  have w1 : (if v1 ≠ "" then v1 else todoPlaceholder (goToLower n1)) = v1 := if_pos hv1
  have w2 : (if v2 ≠ "" then v2 else todoPlaceholder (goToLower n2)) = v2 := if_pos hv2
  simp only [paramsToValues, List.foldl_cons, List.foldl_nil, paramStep, w1, w2]
  simp only [valuesInsert, hn]
  simp

/-- Claim C10, witness at parameters `FOO`/`foo` with defaults `bar`/`baz`. -/
theorem c10_witness :
    goToLower "FOO" = goToLower "foo" ∧ "bar" ≠ "" ∧ "baz" ≠ "" ∧
    ((paramsToValues [⟨"FOO", "bar"⟩, ⟨"foo", "baz"⟩] [] [['x']]).1 =
      [(goToLower "foo", "baz")] ∧
    (paramsToValues [⟨"FOO", "bar"⟩, ⟨"foo", "baz"⟩] [] [['x']]).2 =
      ([['x']].map (substParam ⟨"FOO", "bar"⟩)).map (substParam ⟨"foo", "baz"⟩) ∧
    valueRef (goToLower "FOO") = valueRef (goToLower "foo")) :=
  ⟨by decide, by decide, by decide,
    c10_theorem "FOO" "foo" "bar" "baz" [['x']] (by decide) (by decide) (by decide)⟩

end Template2Helm
